import Mathlib

/-
Verification of the topic-extraction and progress-tracking core of the
study-tracker application (src/app.py).

A document line is modelled as a list of characters.  The regular
expressions of SUBJECT_PATTERNS and SUBTOPIC_PATTERNS are hand-translated
into deterministic recognizers; determinism is justified pattern by
pattern because in every regex the character class that a greedy
repetition consumes is disjoint from the character that must follow it,
so the greedy match never needs to backtrack.
-/

/-- A raw document line (Python `str`), as a list of characters. -/
abbrev Line := List Char

/-- ASCII fragment of the whitespace recognised by Python `str.strip()` and
by the regex class backslash-s.  All inputs in the claims are ASCII. -/
def pyWs (c : Char) : Bool :=
  c = ' ' || c = '\t' || c = '\n' || c = '\r' || c = '\x0b' || c = '\x0c'

/-- Python `str.strip()`: drop leading and trailing whitespace. -/
def trim (l : Line) : Line :=
  ((l.dropWhile pyWs).reverse.dropWhile pyWs).reverse

/-- Python `str.isupper()` (ASCII fragment): at least one cased character
and no lowercase character. -/
def pyIsUpper (l : Line) : Bool :=
  l.any (fun c => c.isAlpha) && l.all (fun c => !c.isLower)

/-- Characters of the regex class `[IVX]`. -/
def isIVX (c : Char) : Bool := c = 'I' || c = 'V' || c = 'X'

/-- Consume an exact literal; `none` if the input does not start with it. -/
def dropLit : List Char → Line → Option Line
  | [], l => some l
  | c :: cs, x :: xs => if x = c then dropLit cs xs else none
  | _ :: _, [] => none

/-- Consume a non-empty greedy run of characters satisfying `p`
(regex `p+` where the following character cannot satisfy `p`). -/
def chompMany1 (p : Char → Bool) (l : Line) : Option Line :=
  if (l.takeWhile p).isEmpty then none else some (l.dropWhile p)

/-- Consume exactly one character satisfying `p`. -/
def chompOne (p : Char → Bool) : Line → Option Line
  | c :: rest => if p c then some rest else none
  | [] => none

/-- Consume an optional single character `c` (regex `c?`). -/
def chompOpt (c : Char) : Line → Line
  | x :: xs => if x = c then xs else x :: xs
  | [] => []

/-- SUBJECT_PATTERNS entry 1: regex `Module` whitespace+ `[IVX]+` `:?`
whitespace* bracket digits+ `L` bracket, anchored by `re.match`. -/
def subjectModuleRoman (c : Line) : Bool :=
  (do
    let r ← dropLit ("Module".data) c
    let r ← chompMany1 pyWs r
    let r ← chompMany1 isIVX r
    let r := chompOpt ':' r
    let r := r.dropWhile pyWs
    let r ← chompOne (fun ch => ch = '[') r
    let r ← chompMany1 Char.isDigit r
    let r ← chompOne (fun ch => ch = 'L') r
    let _ ← chompOne (fun ch => ch = ']') r
    pure ()).isSome

/-- SUBJECT_PATTERNS entry 2: as entry 1 with an Arabic number. -/
def subjectModuleArabic (c : Line) : Bool :=
  (do
    let r ← dropLit ("Module".data) c
    let r ← chompMany1 pyWs r
    let r ← chompMany1 Char.isDigit r
    let r := chompOpt ':' r
    let r := r.dropWhile pyWs
    let r ← chompOne (fun ch => ch = '[') r
    let r ← chompMany1 Char.isDigit r
    let r ← chompOne (fun ch => ch = 'L') r
    let _ ← chompOne (fun ch => ch = ']') r
    pure ()).isSome

/-- SUBJECT_PATTERNS entry 3: a capital letter, then a non-empty run of
letters, whitespace or hyphens, then a colon. -/
def subjectColonHeading (c : Line) : Bool :=
  match c with
  | x :: xs =>
    x.isUpper &&
      (let run := xs.takeWhile (fun ch => ch.isAlpha || pyWs ch || ch = '-')
       !run.isEmpty &&
         (match xs.drop run.length with | ':' :: _ => true | _ => false))
  | [] => false

/-- SUBJECT_PATTERNS entry 4: Roman numerals followed by a period. -/
def subjectRomanDot (c : Line) : Bool :=
  (do
    let r ← chompMany1 isIVX c
    let _ ← chompOne (fun ch => ch = '.') r
    pure ()).isSome

/-- SUBJECT_PATTERNS entry 5: digits, a period, optional whitespace, a
capital letter. -/
def subjectNumDot (c : Line) : Bool :=
  (do
    let r ← chompMany1 Char.isDigit c
    let r ← chompOne (fun ch => ch = '.') r
    let r := r.dropWhile pyWs
    let _ ← chompOne Char.isUpper r
    pure ()).isSome

/-- `any(re.match(p, clean_line) for p in SUBJECT_PATTERNS)` applied to the
trimmed line. -/
def is_subject (c : Line) : Bool :=
  subjectModuleRoman c || subjectModuleArabic c || subjectColonHeading c ||
    subjectRomanDot c || subjectNumDot c

/-- The bullet glyphs of the regex class used by SUBTOPIC_PATTERNS entry 1. -/
def isBulletGlyph (ch : Char) : Bool :=
  ch = '-' || ch = '•' || ch = '●' || ch = '※' || ch = '*'

/-- SUBTOPIC_PATTERNS entry 1: whitespace*, one bullet glyph, one
whitespace character. -/
def subBullet (l : Line) : Bool :=
  match l.dropWhile pyWs with
  | b :: w :: _ => isBulletGlyph b && pyWs w
  | _ => false

/-- SUBTOPIC_PATTERNS entry 2: whitespace*, a lowercase letter, a closing
parenthesis, one whitespace character. -/
def subLettered (l : Line) : Bool :=
  match l.dropWhile pyWs with
  | a :: p :: w :: _ => a.isLower && p = ')' && pyWs w
  | _ => false

/-- SUBTOPIC_PATTERNS entry 3: whitespace*, digits+, a period, digits*,
one whitespace character. -/
def subNumbered (l : Line) : Bool :=
  (do
    let r ← chompMany1 Char.isDigit (l.dropWhile pyWs)
    let r ← chompOne (fun ch => ch = '.') r
    let r := r.dropWhile Char.isDigit
    let _ ← chompOne pyWs r
    pure ()).isSome

/-- SUBTOPIC_PATTERNS entry 4: at least two whitespace characters, a
capital letter, a non-empty run of non-colon characters, a colon. -/
def subIndentColon (l : Line) : Bool :=
  let w := l.takeWhile pyWs
  decide (2 ≤ w.length) &&
    (match l.drop w.length with
     | x :: xs =>
       x.isUpper &&
         (let seg := xs.takeWhile (fun ch => !(ch = ':'))
          !seg.isEmpty &&
            (match xs.drop seg.length with | ':' :: _ => true | _ => false))
     | [] => false)

/-- SUBTOPIC_PATTERNS entry 5: at least two whitespace characters, then a
capital letter. -/
def subIndentCap (l : Line) : Bool :=
  let w := l.takeWhile pyWs
  decide (2 ≤ w.length) &&
    (match l.drop w.length with | x :: _ => x.isUpper | [] => false)

/-- SUBTOPIC_PATTERNS entry 6 tried at position `i` of the line: the
lookbehind requires the preceding character to be a colon, then a
non-empty run of characters other than comma and period, then a lookahead
for a comma or period. -/
def colonSegAt (l : Line) (i : Nat) : Bool :=
  decide (0 < i) &&
    (match (l.take i).getLast? with | some ch => ch = ':' | none => false) &&
    (let rest := l.drop i
     let seg := rest.takeWhile (fun ch => !(ch = ',' || ch = '.'))
     !seg.isEmpty &&
       (match rest.drop seg.length with
        | ch :: _ => ch = ',' || ch = '.'
        | [] => false))

/-- SUBTOPIC_PATTERNS entry 6 as the code runs it: `re.match` anchors the
attempt at position 0, where the lookbehind for a preceding colon cannot
be satisfied. -/
def matchColonSegment (l : Line) : Bool := colonSegAt l 0

/-- The same pattern under `re.search` semantics, following the words of
the specification ("text strictly between a colon and the next
comma/period anywhere in the line"): try every position. -/
def specColonSegmentSearch (l : Line) : Bool :=
  (List.range (l.length + 1)).any (colonSegAt l)

/-- `any(re.match(p, line) for p in SUBTOPIC_PATTERNS)` applied to the raw
line. -/
def is_subtopic (l : Line) : Bool :=
  subBullet l || subLettered l || subNumbered l || subIndentColon l ||
    subIndentCap l || matchColonSegment l

/-- Python `'  ' in line`: two consecutive space characters anywhere. -/
def hasDoubleSpace : Line → Bool
  | a :: b :: rest => (a = ' ' && b = ' ') || hasDoubleSpace (b :: rest)
  | _ => false

/-- Characters of the class in the stripping regex: the bullet glyphs, any
single digit, or a period. -/
def isStripMarker (ch : Char) : Bool :=
  isBulletGlyph ch || ch.isDigit || ch = '.'

/-- `re.sub` of the stripping regex (whitespace*, one marker character,
whitespace*) anchored at the start: remove the match if there is one,
otherwise return the line unchanged. -/
def stripLeadMarker (c : Line) : Line :=
  match c.dropWhile pyWs with
  | m :: rest => if isStripMarker m then rest.dropWhile pyWs else c
  | [] => c

/-- Whether the first character of a line is a strip-marker character. -/
def isMarkerHead : Line → Bool
  | m :: _ => isStripMarker m
  | [] => false

/-- Ordered mapping from subject text to its list of subtopics, the
shallow model of the Python dict of lists (insertion-ordered). -/
abbrev TopicMap := List (Line × List Line)

/-- Python dict assignment `m[k] = v`: replace in place if the key exists,
otherwise append at the end. -/
def dictSet : TopicMap → Line → List Line → TopicMap
  | [], k, v => [(k, v)]
  | (k', v') :: rest, k, v =>
    if k' = k then (k', v) :: rest else (k', v') :: dictSet rest k v

/-- Python `m[k].append(x)` for a key known to be present: append to the
first entry with that key (a no-op when the key is absent, which is
unreachable in the folds below). -/
def dictAppend : TopicMap → Line → Line → TopicMap
  | [], _, _ => []
  | (k', v') :: rest, k, x =>
    if k' = k then (k', v' ++ [x]) :: rest else (k', v') :: dictAppend rest k x

/-- State of the extraction loop: the current subject and the map so far. -/
structure FoldSt where
  cur : Option Line
  map : TopicMap
deriving DecidableEq

/-- One iteration of the primary extraction loop in
`extract_topics_from_pdf` (lines 72-92 of src/app.py). -/
def extractStep (st : FoldSt) (line : Line) : FoldSt :=
  let c := trim line
  if c = [] then st
  else if is_subject c then ⟨some c, dictSet st.map c []⟩
  else
    match st.cur with
    | some cs =>
      if is_subtopic line || hasDoubleSpace line then
        let sub := stripLeadMarker c
        if sub ≠ [] ∧ trim sub ≠ [] then
          ⟨st.cur, dictAppend st.map cs (trim sub)⟩
        else st
      else st
    | none => st

/-- The primary pass: fold the extraction loop over all lines. -/
def primary_map (lines : List Line) : TopicMap :=
  (lines.foldl extractStep ⟨none, []⟩).map

/-- `{k: v for k, v in topics.items() if v}`: drop subjects whose subtopic
list is empty, preserving order. -/
def cleanEmpty (m : TopicMap) : TopicMap :=
  m.filter (fun kv => !kv.2.isEmpty)

/-- The numeric alternative-subject regex of the fallback scan:
digits+, an optional period, whitespace+, a capital letter. -/
def tier2NumMatch (c : Line) : Bool :=
  (do
    let r ← chompMany1 Char.isDigit c
    let r := chompOpt '.' r
    let r ← chompMany1 pyWs r
    let _ ← chompOne Char.isUpper r
    pure ()).isSome

/-- One iteration of the alternative-parsing loop in
`_clean_and_validate_topics` (lines 117-130 of src/app.py). -/
def tier2Step (st : FoldSt) (line : Line) : FoldSt :=
  let c := trim line
  if c = [] then st
  else if decide (3 < c.length) &&
      (pyIsUpper c ||
        (match c.getLast? with | some ch => ch = ':' | none => false) ||
        tier2NumMatch c) then
    ⟨some c, dictSet st.map c []⟩
  else
    match st.cur with
    | some cs => ⟨st.cur, dictAppend st.map cs c⟩
    | none => st

/-- The looser re-scan of all lines (the map it builds starts from the
empty dict, since the primary map has just been filtered to empty). -/
def tier2_map (lines : List Line) : TopicMap :=
  (lines.foldl tier2Step ⟨none, []⟩).map

/-- The synthetic subject key of the last fallback. -/
def detectedContentKey : Line := "Detected Content".data

/-- `[line.strip() for line in lines if line.strip()][:10]`. -/
def first10NonEmpty (lines : List Line) : List Line :=
  ((lines.map trim).filter (fun l => !l.isEmpty)).take 10

/-- Result of `_clean_and_validate_topics` together with whether the
"could not detect topics" warning dialog was shown. -/
structure CleanResult where
  topics : TopicMap
  warned : Bool
deriving DecidableEq

/-- `_clean_and_validate_topics` (lines 108-142 of src/app.py): filter the
primary map, re-scan if the filtered map is empty, and synthesize a
"Detected Content" entry if the dict is still empty. -/
def clean_and_validate_topics (t : TopicMap) (lines : List Line) : CleanResult :=
  let t1 := cleanEmpty t
  let t2 := if t1.isEmpty then tier2_map lines else t1
  if t2.isEmpty then ⟨[(detectedContentKey, first10NonEmpty lines)], true⟩
  else ⟨t2, false⟩

/-- The whole extraction pipeline on an already-decoded line list: the
primary fold followed by `_clean_and_validate_topics`. -/
def extract_topics (lines : List Line) : CleanResult :=
  clean_and_validate_topics (primary_map lines) lines

/-- The checkbox registry `self.checkbox_vars`: an insertion-ordered
mapping from subtopic text to the boolean value of its checkbox variable. -/
abbrev Registry := List (Line × Bool)

/-- Python `k in self.checkbox_vars`. -/
def regHasKey (r : Registry) (k : Line) : Bool :=
  r.any (fun kv => kv.1 = k)

/-- Dict assignment on the registry: replace in place or append. -/
def regSet : Registry → Line → Bool → Registry
  | [], k, v => [(k, v)]
  | (k', v') :: rest, k, v =>
    if k' = k then (k', v) :: rest else (k', v') :: regSet rest k v

/-- The `_create_subject_frame` loops of `refresh_ui` (lines 226-240 of
src/app.py): for every subject in map order and every item in list order,
bind a fresh `BooleanVar()` (initially false) into `checkbox_vars`.
Existing keys are overwritten in place; no key is ever removed. -/
def create_subject_frames (r : Registry) (topics : TopicMap) : Registry :=
  topics.foldl (fun r kv => kv.2.foldl (fun r item => regSet r item false) r) r

/-- `load_progress` (lines 254-266 of src/app.py) applied to an
already-parsed record: for each loaded key present in the registry, set
its value; absent keys are ignored. -/
def load_progress (r : Registry) (loaded : Registry) : Registry :=
  loaded.foldl
    (fun r kv => if regHasKey r kv.1 then regSet r kv.1 kv.2 else r) r

/-- `refresh_ui` (lines 218-229 of src/app.py): rebuild the subject frames
for the current topics, then load and apply the saved record. -/
def refresh_ui (r : Registry) (topics : TopicMap) (loaded : Registry) : Registry :=
  load_progress (create_subject_frames r topics) loaded

/-- All subtopic strings of a TopicMap, across all subjects in order. -/
def flatten_subtopics (topics : TopicMap) : List Line :=
  topics.flatMap (fun kv => kv.2)

/-- JSON escaping of one character as `json.dump` performs it for the
characters appearing in this development (quote and backslash). -/
def jsonEscapeChar (c : Char) : List Char :=
  if c = '"' then ['\\', '"'] else if c = '\\' then ['\\', '\\'] else [c]

/-- A JSON string literal. -/
def jsonStr (s : Line) : List Char :=
  '"' :: (s.flatMap jsonEscapeChar ++ ['"'])

/-- A JSON boolean. -/
def jsonOfBool (b : Bool) : List Char :=
  if b then ("true".data) else ("false".data)

/-- `json.dump` of the progress dict with the default separators. -/
def jsonOfRecord (r : Registry) : List Char :=
  '{' ::
    (List.intercalate (", ".data)
      (r.map (fun kv => jsonStr kv.1 ++ (": ".data) ++ jsonOfBool kv.2))
     ++ ['}'])

/-- One file-system operation performed by `save_progress`. -/
inductive FOp where
  | truncate
  | write (s : List Char)
deriving DecidableEq

/-- Effect of one operation on the content of progress.json. -/
def applyFOp (fs : List Char) : FOp → List Char
  | .truncate => []
  | .write s => fs ++ s

/-- The operation sequence of `save_progress` (lines 242-252 of
src/app.py): `open('progress.json', 'w')` truncates the file, then
`json.dump` writes the serialized record.  A save that fails after `k`
completed operations leaves the file at `runFOps fs (ops.take k)`. -/
def saveOps (r : Registry) : List FOp :=
  [FOp.truncate, FOp.write (jsonOfRecord r)]

/-- Run a sequence of file operations to completion. -/
def runFOps (fs : List Char) (ops : List FOp) : List Char :=
  ops.foldl applyFOp fs

/-- The application state touched by the persistence operations: the
checkbox registry and the content of progress.json. -/
structure TrackerSt where
  vars : Registry
  fileContent : List Char
deriving DecidableEq

/-- `save_progress` on the success path: serialize the full registry and
replace the file content with it. -/
def save_progress (st : TrackerSt) : TrackerSt :=
  ⟨st.vars, runFOps st.fileContent (saveOps st.vars)⟩

/-- `check_progress` (lines 268-287 of src/app.py): compute the completed
and incomplete key lists for the report dialog (the dialog text itself is
presentation and is elided), then call `save_progress`. -/
def check_progress (st : TrackerSt) : (List Line × List Line) × TrackerSt :=
  let completed := (st.vars.filter (fun kv => kv.2)).map (fun kv => kv.1)
  let incomplete := (st.vars.filter (fun kv => !kv.2)).map (fun kv => kv.1)
  ((completed, incomplete), save_progress st)

/-- A marker character is never whitespace. -/
lemma not_pyWs_of_isStripMarker {m : Char} (h : isStripMarker m = true) :
    pyWs m = false := by
  by_contra hw
  have hw' : pyWs m = true := by
    cases hpw : pyWs m
    · exact absurd hpw hw
    · rfl
  simp only [pyWs, Bool.or_eq_true, decide_eq_true_eq] at hw'
  rcases hw' with ((((h1 | h1) | h1) | h1) | h1) | h1 <;> subst h1 <;>
    exact absurd h (by decide)

/-- `trim` never lengthens a line. -/
lemma trim_length_le (l : Line) : (trim l).length ≤ l.length := by
  unfold trim
  calc ((l.dropWhile pyWs).reverse.dropWhile pyWs).reverse.length
      = ((l.dropWhile pyWs).reverse.dropWhile pyWs).length := by
        rw [List.length_reverse]
    _ ≤ (l.dropWhile pyWs).reverse.length := (List.dropWhile_sublist pyWs).length_le
    _ = (l.dropWhile pyWs).length := by rw [List.length_reverse]
    _ ≤ l.length := (List.dropWhile_sublist pyWs).length_le

/-- When a line begins with a marker character, stripping followed by
trimming yields a strictly shorter line: the marker itself is removed. -/
lemma trim_strip_lt {c : Line} (h : isMarkerHead c = true) :
    (trim (stripLeadMarker c)).length < c.length := by
  match c, h with
  | m :: rest, h =>
    have hm : isStripMarker m = true := by simpa [isMarkerHead] using h
    have hw := not_pyWs_of_isStripMarker hm
    have hstrip : stripLeadMarker (m :: rest) = rest.dropWhile pyWs := by
      simp [stripLeadMarker, List.dropWhile_cons, hw, hm]
    rw [hstrip]
    calc (trim (rest.dropWhile pyWs)).length
        ≤ (rest.dropWhile pyWs).length := trim_length_le _
      _ ≤ rest.length := (List.dropWhile_sublist pyWs).length_le
      _ < (m :: rest).length := by simp

/-- Membership after a dict assignment: the value is the assigned one or
was already present. -/
lemma mem_dictSet {m : TopicMap} {k : Line} {v : List Line} {k' : Line}
    {v' : List Line} (h : (k', v') ∈ dictSet m k v) :
    v' = v ∨ (k', v') ∈ m := by
  induction m with
  | nil =>
    simp only [dictSet, List.mem_singleton, Prod.mk.injEq] at h
    exact Or.inl h.2
  | cons a rest ih =>
    obtain ⟨a1, a2⟩ := a
    by_cases hak : a1 = k
    · simp only [dictSet, hak, if_pos rfl] at h
      rcases List.mem_cons.mp h with h | h
      · exact Or.inl (Prod.mk.injEq .. ▸ h).2
      · exact Or.inr (List.mem_cons_of_mem _ h)
    · simp only [dictSet, if_neg hak] at h
      rcases List.mem_cons.mp h with h | h
      · exact Or.inr (h ▸ List.mem_cons_self _ _)
      · rcases ih h with h | h
        · exact Or.inl h
        · exact Or.inr (List.mem_cons_of_mem _ h)

/-- Membership after a dict append: every element of a stored list is
either the appended element or belonged to a list already stored. -/
lemma mem_dictAppend {m : TopicMap} {k : Line} {x : Line} {k' : Line}
    {v' : List Line} {s : Line} (h : (k', v') ∈ dictAppend m k x)
    (hs : s ∈ v') : s = x ∨ ∃ v₀, (k', v₀) ∈ m ∧ s ∈ v₀ := by
  induction m with
  | nil => simp [dictAppend] at h
  | cons a rest ih =>
    obtain ⟨a1, a2⟩ := a
    by_cases hak : a1 = k
    · subst hak
      simp only [dictAppend, if_pos rfl] at h
      rcases List.mem_cons.mp h with h | h
      · obtain ⟨hk', hv'⟩ := Prod.mk.injEq .. ▸ h
        subst hk'
        subst hv'
        rcases List.mem_append.mp hs with h2 | h2
        · exact Or.inr ⟨a2, List.mem_cons_self _ _, h2⟩
        · exact Or.inl (List.mem_singleton.mp h2)
      · exact Or.inr ⟨v', List.mem_cons_of_mem _ h, hs⟩
    · simp only [dictAppend, if_neg hak] at h
      rcases List.mem_cons.mp h with h | h
      · exact Or.inr ⟨v', h ▸ List.mem_cons_self _ _, hs⟩
      · rcases ih h with h | ⟨v₀, h1, h2⟩
        · exact Or.inl h
        · exact Or.inr ⟨v₀, List.mem_cons_of_mem _ h1, h2⟩

/-- One extraction step: any element of a stored subtopic list is either
the subtopic just built from this line (and the emptiness guard passed) or
was already stored. -/
lemma extractStep_mem {st : FoldSt} {line : Line} {k : Line}
    {vs : List Line} {s : Line} (h : (k, vs) ∈ (extractStep st line).map)
    (hs : s ∈ vs) :
    (s = trim (stripLeadMarker (trim line)) ∧ s ≠ []) ∨
      ∃ vs', (k, vs') ∈ st.map ∧ s ∈ vs' := by
  obtain ⟨cur, map⟩ := st
  by_cases h1 : trim line = []
  · simp only [extractStep, h1, if_pos rfl] at h
    exact Or.inr ⟨vs, h, hs⟩
  · cases h2 : is_subject (trim line) with
    | true =>
      simp only [extractStep, if_neg h1, h2, if_pos rfl] at h
      rcases mem_dictSet h with h | h
      · subst h; exact absurd hs (List.not_mem_nil s)
      · exact Or.inr ⟨vs, h, hs⟩
    | false =>
      cases cur with
      | none =>
        simp [extractStep, h1, h2] at h
        exact Or.inr ⟨vs, h, hs⟩
      | some cs =>
        cases h3 : (is_subtopic line || hasDoubleSpace line) with
        | false =>
          simp [extractStep, h1, h2, h3] at h
          exact Or.inr ⟨vs, h, hs⟩
        | true =>
          by_cases h4 : stripLeadMarker (trim line) ≠ [] ∧
              trim (stripLeadMarker (trim line)) ≠ []
          · have hstep : (extractStep ⟨some cs, map⟩ line).map =
                dictAppend map cs (trim (stripLeadMarker (trim line))) := by
              simp [extractStep, h1, h2, h3, h4]
            rw [hstep] at h
            rcases mem_dictAppend h hs with h | ⟨v₀, hm, hv⟩
            · exact Or.inl ⟨h, h ▸ h4.2⟩
            · exact Or.inr ⟨v₀, hm, hv⟩
          · have hstep : (extractStep ⟨some cs, map⟩ line).map = map := by
              simp [extractStep, h1, h2, h3, h4]
            rw [hstep] at h
            exact Or.inr ⟨vs, h, hs⟩

/-- Over the whole primary fold, every stored subtopic string was built
from one of the processed lines (or was in the initial state). -/
lemma foldl_extract_mem :
    ∀ (lines : List Line) (st : FoldSt) (k : Line) (vs : List Line)
      (s : Line), (k, vs) ∈ (lines.foldl extractStep st).map → s ∈ vs →
      (∃ l ∈ lines, s = trim (stripLeadMarker (trim l)) ∧ s ≠ []) ∨
        ∃ vs', (k, vs') ∈ st.map ∧ s ∈ vs' := by
  intro lines
  induction lines with
  | nil => exact fun st k vs s h hs => Or.inr ⟨vs, h, hs⟩
  | cons l ls ih =>
    intro st k vs s h hs
    rw [List.foldl_cons] at h
    rcases ih (extractStep st l) k vs s h hs with ⟨l', hl', hprop⟩ | ⟨vs', hvs', hsvs'⟩
    · exact Or.inl ⟨l', List.mem_cons_of_mem _ hl', hprop⟩
    · rcases extractStep_mem hvs' hsvs' with ⟨heq, hne⟩ | ⟨vs'', hm2, hs2⟩
      · exact Or.inl ⟨l, List.mem_cons_self _ _, heq, hne⟩
      · exact Or.inr ⟨vs'', hm2, hs2⟩

/-- C2 counterexample: the claim says no leading lettered-list marker
such as "a) " survives the stripping step, but the stripping regex only
removes a single bullet/digit/period character, so the retained subtopic
for the line "a) Integration" still starts with "a) ". -/
theorem C2_lettered_marker_remains :
    (extract_topics
        [("Module I: [10L]".data), ("a) Integration".data)]).topics =
      [(("Module I: [10L]".data), [("a) Integration".data)])] ∧
    (("a) Integration".data).take 3 = ("a) ".data)) := by decide

/-- C2 (amended): every subtopic retained by the primary pass is
non-empty and equals the trim of the single-marker strip of the trim of
some input line; when that trimmed line begins with a marker character
(bullet glyph, digit or period) the stored string is strictly shorter, so
exactly one leading marker character together with adjacent whitespace is
removed — lettered-list markers and the remainder of multi-character
markers can survive. -/
theorem C2_strip_amended (lines : List Line) (k : Line) (vs : List Line)
    (s : Line) (hk : (k, vs) ∈ primary_map lines) (hs : s ∈ vs) :
    s ≠ [] ∧ ∃ l ∈ lines, s = trim (stripLeadMarker (trim l)) ∧
      (isMarkerHead (trim l) = true → s.length < (trim l).length) := by
  unfold primary_map at hk
  rcases foldl_extract_mem lines ⟨none, []⟩ k vs s hk hs with
    ⟨l, hl, heq, hne⟩ | ⟨vs', hvs', _⟩
  · refine ⟨hne, l, hl, heq, fun hm => ?_⟩
    rw [heq]
    exact trim_strip_lt hm
  · exact absurd hvs' (List.not_mem_nil _)

/-- Witness for C2 (amended) at a concrete input. -/
theorem C2_strip_amended_witness :
    ((("Module I: [10L]".data), [("Intro".data)]) ∈
        primary_map [("Module I: [10L]".data), ("- Intro".data)] ∧
      ("Intro".data) ∈ [("Intro".data)]) ∧
    (("Intro".data) ≠ [] ∧
      ∃ l ∈ [("Module I: [10L]".data), ("- Intro".data)],
        ("Intro".data) = trim (stripLeadMarker (trim l)) ∧
        (isMarkerHead (trim l) = true →
          ("Intro".data).length < (trim l).length)) :=
  ⟨⟨by decide, by decide⟩,
    C2_strip_amended [("Module I: [10L]".data), ("- Intro".data)]
      (("Module I: [10L]".data)) [("Intro".data)] (("Intro".data))
      (by decide) (by decide)⟩

/-- A line that trims to nothing is skipped by the primary loop. -/
lemma extractStep_skip {st : FoldSt} {l : Line} (h : trim l = []) :
    extractStep st l = st := by
  simp [extractStep, h]

/-- A line that trims to nothing is skipped by the fallback re-scan. -/
lemma tier2Step_skip {st : FoldSt} {l : Line} (h : trim l = []) :
    tier2Step st l = st := by
  simp [tier2Step, h]

/-- The primary fold does nothing on a list of blank lines. -/
lemma foldl_extract_blank :
    ∀ (lines : List Line) (st : FoldSt), (∀ l ∈ lines, trim l = []) →
      lines.foldl extractStep st = st := by
  intro lines
  induction lines with
  | nil => intro st _; rfl
  | cons l ls ih =>
    intro st h
    rw [List.foldl_cons, extractStep_skip (h l (List.mem_cons_self _ _))]
    exact ih st fun x hx => h x (List.mem_cons_of_mem _ hx)

/-- The fallback re-scan does nothing on a list of blank lines. -/
lemma foldl_tier2_blank :
    ∀ (lines : List Line) (st : FoldSt), (∀ l ∈ lines, trim l = []) →
      lines.foldl tier2Step st = st := by
  intro lines
  induction lines with
  | nil => intro st _; rfl
  | cons l ls ih =>
    intro st h
    rw [List.foldl_cons, tier2Step_skip (h l (List.mem_cons_self _ _))]
    exact ih st fun x hx => h x (List.mem_cons_of_mem _ hx)

/-- On a list of blank lines the synthetic subtopic list is empty. -/
lemma first10_blank {lines : List Line} (h : ∀ l ∈ lines, trim l = []) :
    first10NonEmpty lines = [] := by
  unfold first10NonEmpty
  have : (lines.map trim).filter (fun l => !l.isEmpty) = [] := by
    rw [List.filter_eq_nil_iff]
    intro a ha
    rcases List.mem_map.mp ha with ⟨l, hl, rfl⟩
    simp [h l hl]
  rw [this]
  rfl

/-- The cleaning-and-fallback stage never returns an empty map: its
result is the filtered primary map, the re-scan map, or the synthetic
single-entry map. -/
lemma clean_topics_ne_nil (t : TopicMap) (lines : List Line) :
    (clean_and_validate_topics t lines).topics ≠ [] := by
  unfold clean_and_validate_topics
  cases h1 : (cleanEmpty t).isEmpty <;> cases h2 : (tier2_map lines).isEmpty <;>
    simp_all [List.isEmpty_iff]

/-- Unfolding key membership over a cons cell. -/
lemma regHasKey_cons (x : Line × Bool) (r : Registry) (s : Line) :
    regHasKey (x :: r) s = (decide (x.1 = s) || regHasKey r s) := rfl

/-- Key membership after a registry assignment. -/
lemma regHasKey_regSet (r : Registry) (k : Line) (v : Bool) (s : Line) :
    regHasKey (regSet r k v) s = true ↔ (k = s ∨ regHasKey r s = true) := by
  induction r with
  | nil => simp [regSet, regHasKey]
  | cons a rest ih =>
    obtain ⟨a1, a2⟩ := a
    by_cases hak : a1 = k
    · subst hak
      have h1 : regSet ((a1, a2) :: rest) a1 v = (a1, v) :: rest := by
        simp [regSet]
      rw [h1, regHasKey_cons, regHasKey_cons]
      simp only [Bool.or_eq_true, decide_eq_true_eq]
      tauto
    · have h1 : regSet ((a1, a2) :: rest) k v = (a1, a2) :: regSet rest k v := by
        simp [regSet, hak]
      rw [h1, regHasKey_cons, regHasKey_cons]
      simp only [Bool.or_eq_true, decide_eq_true_eq]
      rw [ih]
      tauto

/-- Applying a loaded record only updates values: the key set of the
registry is unchanged. -/
lemma regHasKey_load_progress (loaded : Registry) :
    ∀ (r : Registry) (s : Line),
      regHasKey (load_progress r loaded) s = true ↔ regHasKey r s = true := by
  induction loaded with
  | nil => intro r s; exact Iff.rfl
  | cons a rest ih =>
    intro r s
    show regHasKey (load_progress
      (if regHasKey r a.1 then regSet r a.1 a.2 else r) rest) s = true ↔ _
    rw [ih]
    by_cases hk : regHasKey r a.1 = true
    · rw [if_pos hk, regHasKey_regSet]
      constructor
      · rintro (rfl | h)
        · exact hk
        · exact h
      · exact Or.inr
    · rw [if_neg hk]

/-- Key membership after binding fresh checkbox variables for one
subject's item list. -/
lemma regHasKey_items_foldl (items : List Line) :
    ∀ (r : Registry) (s : Line),
      regHasKey (items.foldl (fun r item => regSet r item false) r) s = true ↔
        (regHasKey r s = true ∨ s ∈ items) := by
  induction items with
  | nil => intro r s; simp
  | cons i is ih =>
    intro r s
    rw [List.foldl_cons, ih, regHasKey_regSet]
    constructor
    · rintro ((rfl | hx) | hmem)
      · exact Or.inr (List.mem_cons_self _ _)
      · exact Or.inl hx
      · exact Or.inr (List.mem_cons_of_mem _ hmem)
    · rintro (hx | hmem)
      · exact Or.inl (Or.inr hx)
      · rcases List.mem_cons.mp hmem with rfl | h
        · exact Or.inl (Or.inl rfl)
        · exact Or.inr h

/-- Key membership after rebuilding all subject frames: the old keys plus
every subtopic of the current map. -/
lemma regHasKey_create_frames (topics : TopicMap) :
    ∀ (r : Registry) (s : Line),
      regHasKey (create_subject_frames r topics) s = true ↔
        (regHasKey r s = true ∨ s ∈ flatten_subtopics topics) := by
  induction topics with
  | nil => intro r s; simp [create_subject_frames, flatten_subtopics]
  | cons kv rest ih =>
    intro r s
    show regHasKey (create_subject_frames
      (kv.2.foldl (fun r item => regSet r item false) r) rest) s = true ↔ _
    rw [ih, regHasKey_items_foldl]
    have hfl : flatten_subtopics (kv :: rest) = kv.2 ++ flatten_subtopics rest := by
      simp [flatten_subtopics]
    rw [hfl]
    simp only [List.mem_append]
    tauto

/-- C1 counterexample: on the scenario line list the pipeline does not
return the claimed TopicMap, because the lettered-list marker of
"a) Integration" is not stripped. -/
theorem C1_scenario_counterexample :
    (extract_topics
        [("Module I: [10L]".data), ("- Introduction to Testing".data),
         ("- Unit Tests".data), ("Module II: [8L]".data),
         ("a) Integration".data)]).topics ≠
      [(("Module I: [10L]".data),
        [("Introduction to Testing".data), ("Unit Tests".data)]),
       (("Module II: [8L]".data), [("Integration".data)])] := by decide

/-- C1 (amended): the pipeline returns the claimed map except that the
second subject's subtopic is stored as "a) Integration" (the lettered
marker survives stripping); key order and list order are as claimed and
no warning fires. -/
theorem C1_scenario_actual :
    extract_topics
        [("Module I: [10L]".data), ("- Introduction to Testing".data),
         ("- Unit Tests".data), ("Module II: [8L]".data),
         ("a) Integration".data)] =
      ⟨[(("Module I: [10L]".data),
         [("Introduction to Testing".data), ("Unit Tests".data)]),
        (("Module II: [8L]".data), [("a) Integration".data)])], false⟩ := by
  decide

/-- C3 counterexample: for the single line "HEADING", Tier 2 produces the
subject "HEADING" with an empty subtopic list; its cleaned map is empty,
yet Tier 3 does not run — the result has no "Detected Content" key and no
warning fires, contradicting the claimed gating. -/
theorem C3_gating_counterexample :
    cleanEmpty (tier2_map [("HEADING".data)]) = [] ∧
      extract_topics [("HEADING".data)] = ⟨[(("HEADING".data), [])], false⟩ := by
  decide

/-- C3 (amended): Tier 2 runs iff Tier 1's cleaned map is empty, but
Tier 3 is gated on the raw Tier 2 dict: no empty-list removal is applied
after the re-scan, so a Tier 2 subject with an empty list stops the
escalation; the warning fires exactly when Tier 3 runs. -/
theorem C3_gating_amended (t : TopicMap) (lines : List Line) :
    (clean_and_validate_topics t lines).warned =
        ((cleanEmpty t).isEmpty && (tier2_map lines).isEmpty) ∧
      (clean_and_validate_topics t lines).topics =
        (if (cleanEmpty t).isEmpty then
           (if (tier2_map lines).isEmpty then
              [(detectedContentKey, first10NonEmpty lines)]
            else tier2_map lines)
         else cleanEmpty t) := by
  cases h1 : (cleanEmpty t).isEmpty <;>
    cases h2 : (tier2_map lines).isEmpty <;>
      simp [clean_and_validate_topics, h1, h2]

/-- C4: on any line list with at least one line that is non-empty after
trimming, the full extraction returns a map with at least one subject
key (in fact the fallback chain never returns an empty map). -/
theorem C4_nonempty (lines : List Line)
    (h : ∃ l ∈ lines, trim l ≠ []) : (extract_topics lines).topics ≠ [] :=
  clean_topics_ne_nil (primary_map lines) lines

/-- Witness for C4 at a concrete input. -/
theorem C4_nonempty_witness :
    (∃ l ∈ [("abc".data)], trim l ≠ []) ∧
      (extract_topics [("abc".data)]).topics ≠ [] :=
  ⟨by decide, C4_nonempty [("abc".data)] (by decide)⟩

/-- C5 counterexample: a document whose only line is empty yields the
single-entry map with the "Detected Content" key and an empty list — not
the empty TopicMap the claim requires. -/
theorem C5_empty_doc_counterexample :
    (extract_topics [([] : Line)]).topics = [(detectedContentKey, [])] ∧
      (extract_topics [([] : Line)]).topics ≠ [] := by decide

/-- C5 (amended): when every line trims to nothing, extraction completes,
the "no structure" warning fires, and the result is the single-entry map
mapping "Detected Content" to an empty list — not the Error sentinel and
not an empty map. -/
theorem C5_empty_doc_amended (lines : List Line)
    (h : ∀ l ∈ lines, trim l = []) :
    extract_topics lines = ⟨[(detectedContentKey, [])], true⟩ := by
  have h1 : primary_map lines = [] := by
    unfold primary_map
    rw [foldl_extract_blank lines _ h]
  have h2 : tier2_map lines = [] := by
    unfold tier2_map
    rw [foldl_tier2_blank lines _ h]
  have h3 : first10NonEmpty lines = [] := first10_blank h
  unfold extract_topics
  rw [h1]
  simp [clean_and_validate_topics, cleanEmpty, h2, h3]

/-- Witness for C5 (amended) at a concrete input. -/
theorem C5_empty_doc_amended_witness :
    (∀ l ∈ [([] : Line)], trim l = []) ∧
      extract_topics [([] : Line)] = ⟨[(detectedContentKey, [])], true⟩ :=
  ⟨by decide, C5_empty_doc_amended [([] : Line)] (by decide)⟩

/-- The colon-segment pattern can never match under `re.match`: the
anchored attempt at position 0 has no preceding character for the
lookbehind. -/
lemma matchColonSegment_false (l : Line) : matchColonSegment l = false := by
  simp [matchColonSegment, colonSegAt]

/-- C6: the line "see also: Alpha, Beta" carries text strictly between a
colon and the next comma (the search-semantics pattern matches), yet the
code's `re.match` classification rejects it and the primary pass discards
it even while a subject is active. -/
theorem C6_colon_segment_dead :
    is_subtopic ("see also: Alpha, Beta".data) = false ∧
      specColonSegmentSearch ("see also: Alpha, Beta".data) = true ∧
      primary_map [("Heading:".data), ("see also: Alpha, Beta".data)] =
        [(("Heading:".data), [])] := by decide

/-- C7 counterexample: with prior file content equal to an earlier save of
the record and a save attempt that completes only its first operation (the
truncating open), the file is left neither with the prior content nor with
the fully serialized record. -/
theorem C7_atomicity_counterexample :
    runFOps (jsonOfRecord [(("Unit Tests".data), true)])
        ((saveOps [(("Unit Tests".data), true)]).take 1) ≠
      jsonOfRecord [(("Unit Tests".data), true)] ∧
    runFOps (jsonOfRecord [(("Unit Tests".data), true)])
        ((saveOps [(("Unit Tests".data), true)]).take 1) ≠
      runFOps (jsonOfRecord [(("Unit Tests".data), true)])
        (saveOps [(("Unit Tests".data), true)]) := by decide

/-- C7 (amended): a completed save replaces the file with exactly the
serialized record, but the write is not atomic — the first operation of
every save truncates the file to empty, so a failure between the open and
the write destroys the prior content instead of leaving it intact. -/
theorem C7_save_amended (fs : List Char) (r : Registry) :
    runFOps fs (saveOps r) = jsonOfRecord r ∧
      runFOps fs ((saveOps r).take 1) = [] :=
  ⟨rfl, rfl⟩

/-- C8: starting from the freshly initialized (empty) registry, the
refresh-then-load pipeline produces a completion-flag registry whose keys
are exactly the flattened subtopic strings of the active TopicMap: no
stale key of the loaded record is introduced and no current subtopic is
dropped. -/
theorem C8_reconciliation (topics : TopicMap) (loaded : Registry)
    (s : Line) :
    regHasKey (refresh_ui [] topics loaded) s = true ↔
      s ∈ flatten_subtopics topics := by
  unfold refresh_ui
  rw [regHasKey_load_progress, regHasKey_create_frames]
  simp [regHasKey]

/-- C9: `check_progress` ends by calling `save_progress`, so after every
call the persisted file holds the serialization of the current completion
flags, exactly as a direct save would leave it. -/
theorem C9_check_progress_saves (st : TrackerSt) :
    (check_progress st).2 = save_progress st ∧
      (check_progress st).2.fileContent = jsonOfRecord st.vars :=
  ⟨rfl, rfl⟩

/-- C10: rebuilding the UI for a new TopicMap never removes a key from the
checkbox registry — every pre-existing key survives `refresh_ui` — and the
next save serializes the whole surviving registry, so subtopics of
previously loaded documents are still included in it. -/
theorem C10_registry_grows (r : Registry) (topics : TopicMap)
    (loaded : Registry) (s : Line) (fs : List Char)
    (h : regHasKey r s = true) :
    regHasKey (refresh_ui r topics loaded) s = true ∧
      (save_progress ⟨refresh_ui r topics loaded, fs⟩).fileContent =
        jsonOfRecord (refresh_ui r topics loaded) := by
  refine ⟨?_, rfl⟩
  unfold refresh_ui
  rw [regHasKey_load_progress, regHasKey_create_frames]
  exact Or.inl h

/-- Witness for C10 at a concrete input. -/
theorem C10_registry_grows_witness :
    regHasKey [(("Old Topic".data), true)] ("Old Topic".data) = true ∧
      (regHasKey
          (refresh_ui [(("Old Topic".data), true)]
            [(("S:".data), [("New".data)])] []) ("Old Topic".data) = true ∧
        (save_progress ⟨refresh_ui [(("Old Topic".data), true)]
            [(("S:".data), [("New".data)])] [], []⟩).fileContent =
          jsonOfRecord (refresh_ui [(("Old Topic".data), true)]
            [(("S:".data), [("New".data)])] [])) :=
  ⟨by decide,
    C10_registry_grows [(("Old Topic".data), true)]
      [(("S:".data), [("New".data)])] [] ("Old Topic".data) [] (by decide)⟩
